import Mathlib

/-!
Verification of the grid-simulation core of `the_snake.py`.

The embedding below translates the source file's constants, the high-score
persistence functions, the `Snake` class, the entity relocation policy and
the per-tick body of `main` into Lean definitions.  The pygame rendering and
clock calls are pure I/O and are omitted; the persisted high-score file is
modelled as an `Option (List Char)` value (`none` = the file is absent,
`some cs` = the file holds the characters `cs`).  Python's `random.choice`
over the free cells is modelled by quantifying over every member of the set
of possible outcomes, and the three fresh entity positions produced inside a
tick are passed to `tick` as explicit oracle arguments.
-/

namespace TheSnake

/-! ## Constants (`the_snake.py`, lines 28–43) -/

def GRID_SIZE : Int := 20

def SCREEN_WIDTH : Int := 640

def SCREEN_HEIGHT : Int := 480

def GRID_WIDTH : Nat := (SCREEN_WIDTH / GRID_SIZE).toNat

def GRID_HEIGHT : Nat := (SCREEN_HEIGHT / GRID_SIZE).toNat

/-- The set `ALL_CELLS` of the source: `(x * GRID_SIZE, y * GRID_SIZE)` for
`x in range(GRID_WIDTH)` and `y in range(GRID_HEIGHT)`. -/
def ALL_CELLS : Finset (Int × Int) :=
  (Finset.range GRID_WIDTH ×ˢ Finset.range GRID_HEIGHT).image
    (fun p => ((p.1 : Int) * GRID_SIZE, (p.2 : Int) * GRID_SIZE))

def UP : Int × Int := (0, -1)

def DOWN : Int × Int := (0, 1)

def LEFT : Int × Int := (-1, 0)

def RIGHT : Int × Int := (1, 0)

/-! ## High-score persistence (`the_snake.py`, lines 5–25)

The backing file `highscore.txt` is modelled as `Option (List Char)`.
Python's `str.strip` is modelled on the ASCII whitespace characters and
`int(...)` on signed ASCII decimal strings (the digit-group underscores and
non-ASCII digits that CPython's `int` also accepts are not modelled; no
behaviour verified here depends on them). -/

def isSpaceChar (c : Char) : Bool :=
  decide (c.toNat = 32 ∨ c.toNat = 9 ∨ c.toNat = 10 ∨ c.toNat = 13 ∨
    c.toNat = 11 ∨ c.toNat = 12)

/-- Python `str.strip()`: remove leading and trailing whitespace. -/
def strip (cs : List Char) : List Char :=
  ((cs.dropWhile isSpaceChar).reverse.dropWhile isSpaceChar).reverse

def isDigitChar (c : Char) : Bool :=
  decide (48 ≤ c.toNat ∧ c.toNat ≤ 57)

def digitVal (c : Char) : Nat := c.toNat - 48

/-- Value of a nonempty string of decimal digits (most significant first). -/
def parseNat (cs : List Char) : Option Nat :=
  if !cs.isEmpty && cs.all isDigitChar then
    some (cs.foldl (fun acc c => acc * 10 + digitVal c) 0)
  else
    none

/-- Python `int(s)` on an already-stripped string: optional sign followed by
decimal digits; `none` models the `ValueError` raised on anything else. -/
def pyInt : List Char → Option Int
  | [] => none
  | c :: rest =>
    if c = '-' then (parseNat rest).map (fun n => -(n : Int))
    else if c = '+' then (parseNat rest).map (fun n => (n : Int))
    else (parseNat (c :: rest)).map (fun n => (n : Int))

/-- Model of `load_high_score()`: parse the file contents, returning `0` when the file
is absent (`none`) or its stripped contents fail to parse as an integer
(the `except ValueError` branch of the source). -/
def load_high_score : Option (List Char) → Int
  | none => 0
  | some content =>
    match pyInt (strip content) with
    | some n => n
    | none => 0

def digitChar (d : Nat) : Char := Char.ofNat (48 + d)

/-- Little-endian decimal digits of `n`, computed with explicit fuel so that
the kernel can evaluate it (`digitsRevAux n n` is always fully accurate,
since `n` steps of fuel suffice for `n`). -/
def digitsRevAux : Nat → Nat → List Nat
  | _, 0 => []
  | 0, _ + 1 => []
  | fuel + 1, n + 1 => (n + 1) % 10 :: digitsRevAux fuel ((n + 1) / 10)

/-- Numeric value of a little-endian digit list (specification helper used to
state the correctness of `digitsRevAux`). -/
def ofDigitsLE : List Nat → Nat
  | [] => 0
  | d :: rest => d + 10 * ofDigitsLE rest

/-- Python `str(n)` for a natural number: its decimal digit string. -/
def pyStrNat (n : Nat) : List Char :=
  if n = 0 then ['0'] else ((digitsRevAux n n).map digitChar).reverse

/-- Python `str(v)` for an integer: decimal digits, with a leading minus sign
when `v` is negative. -/
def pyStr (v : Int) : List Char :=
  if v < 0 then '-' :: pyStrNat v.natAbs else pyStrNat v.natAbs

/-- Model of `save_high_score(score)`: overwrite the file with `str(score)`. -/
def save_high_score (score : Int) (_store : Option (List Char)) :
    Option (List Char) :=
  some (pyStr score)

/-- Model of `change_title(snake_length)`: load the record and overwrite it with the
current length exactly when the length is strictly greater (the
`pygame.display.set_caption` call has no effect on game state and is
omitted). -/
def change_title (snake_length : Nat) (store : Option (List Char)) :
    Option (List Char) :=
  if (snake_length : Int) > load_high_score store then
    save_high_score snake_length store
  else
    store

/-! ## Free-cell query and entity relocation (`the_snake.py`, lines 69–135) -/

/-- Model of `get_available_positions(snake_positions)`:
`ALL_CELLS - set(snake_positions)`. -/
def get_available_positions (snake_positions : List (Int × Int)) :
    Finset (Int × Int) :=
  ALL_CELLS \ snake_positions.toFinset

/-- The set of possible outcomes of `randomize_position(snake_positions)`
(shared verbatim by `Apple`, `BadFood` and `Obstacle`): the position is drawn
by `choice(list(available_positions))`, so every member of
`get_available_positions snake_positions` is a possible result and nothing
else is. -/
def randomize_position (snake_positions : List (Int × Int)) :
    Finset (Int × Int) :=
  get_available_positions snake_positions

/-! ## Snake (`the_snake.py`, lines 138–184) -/

/-- State of the `Snake` object.  `position` is the `GameObject.position`
attribute maintained by `__init__` and the tail of `move`; it shadows
`positions[0]`. -/
structure Snake where
  length : Nat
  positions : List (Int × Int)
  direction : Int × Int
  next_direction : Option (Int × Int)
  last : Option (Int × Int)
  position : Int × Int
deriving DecidableEq, Repr

/-- Model of `Snake.__init__` (also the body of `reset()`): one cell at the board
center, moving right. -/
def Snake.initial : Snake where
  length := 1
  positions := [(SCREEN_WIDTH / 2, SCREEN_HEIGHT / 2)]
  direction := RIGHT
  next_direction := none
  last := none
  position := (SCREEN_WIDTH / 2, SCREEN_HEIGHT / 2)

/-- Model of `get_head_position()`, which is `self.positions[0]`; the embedding totalizes the
Python `IndexError` on an empty body with a default cell (reachable states
keep the body nonempty except when the apple and the bad food coincide on
the cell a one-cell snake moves onto). -/
def Snake.get_head_position (s : Snake) : Int × Int :=
  s.positions.headD (0, 0)

/-- Model of `update_direction()`: consume the queued direction, if any (every queued
value is one of the four unit vectors, all of which are truthy tuples in
Python, so `if self.next_direction:` is an `isSome` test). -/
def Snake.update_direction (s : Snake) : Snake :=
  match s.next_direction with
  | some d => { s with direction := d, next_direction := none }
  | none => s

/-- The new head cell computed at the top of `move()`:
`((cur[0] + x*GRID_SIZE) % SCREEN_WIDTH, (cur[1] + y*GRID_SIZE) % SCREEN_HEIGHT)`.
Lean's `%` on `Int` agrees with Python's `%` for positive moduli. -/
def Snake.next_head (s : Snake) : Int × Int :=
  ((s.get_head_position.1 + s.direction.1 * GRID_SIZE) % SCREEN_WIDTH,
   (s.get_head_position.2 + s.direction.2 * GRID_SIZE) % SCREEN_HEIGHT)

/-- Model of `move()`: if the new head lies in `positions[1:]`, `reset()`; otherwise
prepend it and pop the tail cell (into `last`) when the body exceeds
`length`.  Both branches end with `self.position = self.positions[0]`. -/
def Snake.move (s : Snake) : Snake :=
  let new := s.next_head
  let s' :=
    if new ∈ s.positions.tail then
      Snake.initial
    else
      let ps := new :: s.positions
      if ps.length > s.length then
        { s with positions := ps.dropLast, last := ps.getLast? }
      else
        { s with positions := ps, last := none }
  { s' with position := s'.positions.headD (0, 0) }

/-! ## Input handling (`the_snake.py`, lines 187–214)

`pygame.event.get()` is modelled as a list of events.  `SystemExit` (the
quit and escape paths) is modelled by the `none` result. -/

inductive Key where
  | up
  | down
  | left
  | right
  | escape
  | q
  | w
  | other (code : Nat)
deriving DecidableEq, Repr

inductive Event where
  | quit
  | keydown (key : Key)
deriving DecidableEq, Repr

/-- The `direction_map` dictionary: `dict.get` returns `None` (here `none`)
for keys outside the four arrows. -/
def direction_map : Key → Option (Int × Int)
  | .up => some UP
  | .down => some DOWN
  | .left => some LEFT
  | .right => some RIGHT
  | _ => none

/-- Model of `handle_keys(snake, current_speed)` over this frame's event list.  Note
that the final `else` branch assigns `direction_map.get(event.key)` to
`snake.next_direction` unconditionally, so an unrecognized key stores
`None`. -/
def handle_keys (snake : Snake) (current_speed : Int) :
    List Event → Option (Snake × Int)
  | [] => some (snake, current_speed)
  | .quit :: _ => none
  | .keydown k :: rest =>
    if k = .escape then none
    else if k = .q then handle_keys snake (current_speed + 2) rest
    else if k = .w then handle_keys snake (max 1 (current_speed - 2)) rest
    else handle_keys { snake with next_direction := direction_map k } current_speed rest

/-! ## The game loop body (`the_snake.py`, lines 238–281)

One iteration of the `while True` loop, after `handle_keys`: the snake is
advanced and the three independent collision checks run in source order.
The fresh positions that `randomize_position` would draw are supplied as
oracle arguments `na`, `nb`, `no`. -/

structure GameState where
  snake : Snake
  apple : Int × Int
  bad_food : Int × Int
  obstacle : Int × Int
  store : Option (List Char)
deriving DecidableEq, Repr

/-- Lines 252–253: `snake.update_direction(); snake.move()`. -/
def after_move (g : GameState) : GameState :=
  { g with snake := g.snake.update_direction.move }

/-- Lines 255–257: on eating the apple, increment `length` and relocate the
apple. -/
def step_apple (g : GameState) (na : Int × Int) : GameState :=
  if g.snake.get_head_position = g.apple then
    { g with
      snake := { g.snake with length := g.snake.length + 1 }
      apple := na }
  else g

/-- Lines 259–266: on eating bad food, either shrink (`length -= 1` and pop
the tail) when `length > 1`, or persist the record and `reset()`; relocate
the bad food in both cases. -/
def step_bad_food (g : GameState) (nb : Int × Int) : GameState :=
  if g.snake.get_head_position = g.bad_food then
    if g.snake.length > 1 then
      { g with
        snake := { g.snake with
          length := g.snake.length - 1
          positions := g.snake.positions.dropLast }
        bad_food := nb }
    else
      { g with
        store := change_title g.snake.length g.store
        snake := Snake.initial
        bad_food := nb }
  else g

/-- Lines 268–271: on hitting the obstacle, persist the record, `reset()`
and relocate the obstacle. -/
def step_obstacle (g : GameState) (no : Int × Int) : GameState :=
  if g.snake.get_head_position = g.obstacle then
    { g with
      store := change_title g.snake.length g.store
      snake := Snake.initial
      obstacle := no }
  else g

/-- One full simulation tick (lines 252–271; the drawing calls that follow do
not touch game state). -/
def tick (g : GameState) (na nb no : Int × Int) : GameState :=
  step_obstacle (step_bad_food (step_apple (after_move g) na) nb) no

/-- Lines 242–247 of `main`, restricted to their effect on the persisted
store: a fresh snake has `length = 1` and `change_title(snake.length)` runs
once before the loop starts. -/
def startup_store (store : Option (List Char)) : Option (List Char) :=
  change_title Snake.initial.length store

/-- Self-collision reset condition of this tick's `move()`. -/
def self_collision (g : GameState) : Prop :=
  (g.snake.update_direction).next_head ∈ (g.snake.update_direction).positions.tail

/-- Condition of the bad-food reset branch (lines 263–265): the moved head is
on the bad food and `length > 1` fails at that point. -/
def bad_food_death (g : GameState) (na : Int × Int) : Prop :=
  (step_apple (after_move g) na).snake.get_head_position = g.bad_food ∧
    ¬ (step_apple (after_move g) na).snake.length > 1

/-- Condition of the obstacle reset branch (line 268), evaluated on the state
the obstacle check actually sees. -/
def obstacle_hit (g : GameState) (na nb : Int × Int) : Prop :=
  (step_bad_food (step_apple (after_move g) na) nb).snake.get_head_position
    = g.obstacle

/-- Some reset happens during the tick. -/
def tick_has_reset (g : GameState) (na nb : Int × Int) : Prop :=
  self_collision g ∨ bad_food_death g na ∨ obstacle_hit g na nb

instance (g : GameState) : Decidable (self_collision g) := by
  unfold self_collision; infer_instance

instance (g : GameState) (na : Int × Int) : Decidable (bad_food_death g na) := by
  unfold bad_food_death; infer_instance

instance (g : GameState) (na nb : Int × Int) : Decidable (obstacle_hit g na nb) := by
  unfold obstacle_hit; infer_instance

instance (g : GameState) (na nb : Int × Int) : Decidable (tick_has_reset g na nb) := by
  unfold tick_has_reset; infer_instance

/-! ## Concrete states used by the witnesses and counterexamples -/

/-- A three-cell snake whose computed next head is its own second body cell. -/
def snakeAboutToBite : Snake where
  length := 3
  positions := [(300, 240), (320, 240), (320, 260)]
  direction := RIGHT
  next_direction := none
  last := none
  position := (300, 240)

/-- A one-cell snake in the rightmost column, moving right. -/
def snakeAtRightEdge : Snake where
  length := 1
  positions := [(620, 240)]
  direction := RIGHT
  next_direction := none
  last := none
  position := (620, 240)

/-- A two-cell snake moving right with the exact reverse direction queued. -/
def snakeReversing : Snake where
  length := 2
  positions := [(340, 240), (320, 240)]
  direction := RIGHT
  next_direction := some (-1, 0)
  last := none
  position := (340, 240)

/-- A snake with a direction change pending. -/
def snakePendingUp : Snake :=
  { Snake.initial with next_direction := some UP }

/-- A game state whose tick hits nothing: the fresh snake moves right to
`(340, 240)` while all entities sit elsewhere. -/
def sampleGame : GameState where
  snake := Snake.initial
  apple := (0, 0)
  bad_food := (20, 0)
  obstacle := (40, 0)
  store := none

/-- A game state in which the apple and the bad food coincide on the cell the
one-cell snake is about to enter. -/
def overlapGame : GameState where
  snake := Snake.initial
  apple := (340, 240)
  bad_food := (340, 240)
  obstacle := (100, 100)
  store := none

/-! ## Helper lemmas about `Snake` -/

theorem Snake.update_direction_positions (s : Snake) :
    s.update_direction.positions = s.positions := by
  unfold Snake.update_direction
  cases s.next_direction <;> rfl

theorem Snake.update_direction_length (s : Snake) :
    s.update_direction.length = s.length := by
  unfold Snake.update_direction
  cases s.next_direction <;> rfl

theorem Snake.move_reset_of_mem (s : Snake)
    (h : s.next_head ∈ s.positions.tail) : s.move = Snake.initial := by
  simp only [Snake.move, if_pos h]
  rfl

theorem Snake.move_head (s : Snake) (hne : s.positions ≠ [])
    (h : s.next_head ∉ s.positions.tail) :
    s.move.get_head_position = s.next_head := by
  obtain ⟨a, t, hps⟩ : ∃ a t, s.positions = a :: t := by
    cases hps : s.positions with
    | nil => exact absurd hps hne
    | cons a t => exact ⟨a, t, rfl⟩
  simp only [Snake.move, Snake.get_head_position, if_neg h]
  split
  · rw [hps]
    rfl
  · rfl

theorem Snake.move_length_field (s : Snake)
    (h : s.next_head ∉ s.positions.tail) : s.move.length = s.length := by
  simp only [Snake.move, if_neg h]
  split <;> rfl

theorem Snake.move_positions_length (s : Snake)
    (h : s.next_head ∉ s.positions.tail)
    (hinv : s.positions.length = s.length) :
    s.move.positions.length = s.length := by
  simp only [Snake.move, if_neg h]
  split
  · simp [List.length_dropLast, hinv]
  · rename_i hcond
    simp only [List.length_cons] at hcond
    omega

/-- C1: if the computed next head cell lies in `positions[1:]`, `move()` does
not prepend it but resets the snake to a single cell at the board center,
moving right, with no pending direction. -/
theorem move_self_collision_resets (s : Snake)
    (h : s.next_head ∈ s.positions.tail) :
    s.move = Snake.initial ∧ s.move.length = 1 ∧
      s.move.positions = [(SCREEN_WIDTH / 2, SCREEN_HEIGHT / 2)] ∧
      s.move.direction = RIGHT ∧ s.move.next_direction = none := by
  rw [Snake.move_reset_of_mem s h]
  exact ⟨rfl, rfl, rfl, rfl, rfl⟩

/-- Witness for C1: a three-cell snake about to run into its second cell. -/
theorem move_self_collision_resets_witness :
    snakeAboutToBite.next_head ∈ snakeAboutToBite.positions.tail ∧
      snakeAboutToBite.move = Snake.initial :=
  ⟨by decide, (move_self_collision_resets snakeAboutToBite (by decide)).1⟩

/-- C2: when the computed next head cell is not in `positions[1:]`, `move()`
sets the new head to the componentwise sum of head and scaled direction,
reduced modulo the board pixel dimensions (wraparound at both edges). -/
theorem move_wraps (s : Snake) (hne : s.positions ≠ [])
    (h : s.next_head ∉ s.positions.tail) :
    s.move.get_head_position =
      ((s.get_head_position.1 + s.direction.1 * GRID_SIZE) % SCREEN_WIDTH,
       (s.get_head_position.2 + s.direction.2 * GRID_SIZE) % SCREEN_HEIGHT) :=
  Snake.move_head s hne h

/-- Witness for C2: a head in the rightmost column moving right wraps to
column 0 in the same row. -/
theorem move_wraps_witness :
    snakeAtRightEdge.positions ≠ [] ∧
      snakeAtRightEdge.next_head ∉ snakeAtRightEdge.positions.tail ∧
      snakeAtRightEdge.move.get_head_position = (0, 240) := by
  refine ⟨by decide, by decide, ?_⟩
  rw [move_wraps snakeAtRightEdge (by decide) (by decide)]
  decide

/-- C9: a snake of length at least two whose second body cell is the cell the
head just left, with the exact reverse of its direction queued, resets on the
next `update_direction(); move()`. -/
theorem reversal_self_collision (s : Snake)
    (hlen : 2 ≤ s.length) (hpos : 2 ≤ s.positions.length)
    (hsec : s.positions[1]? = some
      ((s.get_head_position.1 - s.direction.1 * GRID_SIZE) % SCREEN_WIDTH,
       (s.get_head_position.2 - s.direction.2 * GRID_SIZE) % SCREEN_HEIGHT))
    (hq : s.next_direction = some (-s.direction.1, -s.direction.2)) :
    s.update_direction.move = Snake.initial ∧
      s.update_direction.move.length = 1 ∧
      s.update_direction.move.positions =
        [(SCREEN_WIDTH / 2, SCREEN_HEIGHT / 2)] := by
  obtain ⟨p0, p1, rest, hps⟩ : ∃ p0 p1 rest, s.positions = p0 :: p1 :: rest := by
    cases hps : s.positions with
    | nil => rw [hps] at hpos; simp at hpos
    | cons a t =>
      cases ht : t with
      | nil => rw [hps, ht] at hpos; simp at hpos
      | cons b u => exact ⟨a, b, u, rfl⟩
  have ht : s.update_direction =
      { s with direction := (-s.direction.1, -s.direction.2),
               next_direction := none } := by
    unfold Snake.update_direction
    rw [hq]
  have hp1 : p1 =
      ((s.get_head_position.1 - s.direction.1 * GRID_SIZE) % SCREEN_WIDTH,
       (s.get_head_position.2 - s.direction.2 * GRID_SIZE) % SCREEN_HEIGHT) := by
    rw [hps] at hsec
    simpa using hsec
  have hhead : s.get_head_position = p0 := by
    unfold Snake.get_head_position
    rw [hps]
    rfl
  have a1 : p0.1 + -s.direction.1 * GRID_SIZE = p0.1 - s.direction.1 * GRID_SIZE := by
    ring
  have a2 : p0.2 + -s.direction.2 * GRID_SIZE = p0.2 - s.direction.2 * GRID_SIZE := by
    ring
  have hnh : s.update_direction.next_head = p1 := by
    rw [ht, hp1, hhead]
    unfold Snake.next_head Snake.get_head_position
    simp only [hps, List.headD_cons]
    rw [a1, a2]
  have hmem : s.update_direction.next_head ∈ s.update_direction.positions.tail := by
    rw [hnh, Snake.update_direction_positions, hps]
    exact List.mem_cons_self p1 rest
  rw [Snake.move_reset_of_mem _ hmem]
  exact ⟨rfl, rfl, rfl⟩

/-- Witness for C9: a two-cell snake moving right with `LEFT` queued resets. -/
theorem reversal_self_collision_witness :
    snakeReversing.update_direction.move = Snake.initial :=
  (reversal_self_collision snakeReversing (by decide) (by decide)
    (by decide) (by decide)).1

/-- C3 counterexample: with a direction already queued, a key-down on an
unrecognized key (Python key code 97) is not a no-op — it overwrites the
pending direction with `None`, while the speed is returned unchanged. -/
theorem handle_keys_unrecognized_cex :
    handle_keys snakePendingUp 10 [Event.keydown (Key.other 97)] =
      some ({ snakePendingUp with next_direction := none }, 10) ∧
      snakePendingUp.next_direction = some UP ∧
      ({ snakePendingUp with next_direction := none } : Snake).next_direction
        ≠ snakePendingUp.next_direction := by
  exact ⟨rfl, rfl, by decide⟩

/-- C3 (amended): a key-down event on a key that is not an arrow key, not Q,
not W and not Escape leaves the returned speed unchanged but assigns `None`
to the snake's pending direction, clearing any queued direction; it is a
no-op on game state only when no direction was pending. -/
theorem handle_keys_unrecognized (s : Snake) (speed : Int) (c : Nat) :
    handle_keys s speed [Event.keydown (Key.other c)] =
      some ({ s with next_direction := none }, speed) := rfl

/-- C8: every possible outcome of `randomize_position(snake_positions)` is a
member of `ALL_CELLS` and avoids every snake cell, and when the snake cells
are valid and do not cover the whole board at least one outcome exists. -/
theorem randomize_position_avoids_snake (snake_positions : List (Int × Int))
    (hval : ∀ p ∈ snake_positions, p ∈ ALL_CELLS)
    (hne : snake_positions.toFinset ≠ ALL_CELLS) :
    (randomize_position snake_positions).Nonempty ∧
      ∀ c ∈ randomize_position snake_positions,
        c ∈ ALL_CELLS ∧ c ∉ snake_positions := by
  constructor
  · rw [randomize_position, get_available_positions, Finset.sdiff_nonempty]
    intro hsub
    exact hne
      (Finset.Subset.antisymm (fun x hx => hval x (List.mem_toFinset.mp hx)) hsub)
  · intro c hc
    rw [randomize_position, get_available_positions, Finset.mem_sdiff] at hc
    exact ⟨hc.1, fun hm => hc.2 (List.mem_toFinset.mpr hm)⟩

/-- Witness for C8: a one-cell snake at the board center leaves free cells,
all of them on the board and off the snake. -/
theorem randomize_position_avoids_snake_witness :
    (randomize_position [((320 : Int), (240 : Int))]).Nonempty ∧
      ∀ c ∈ randomize_position [((320 : Int), (240 : Int))],
        c ∈ ALL_CELLS ∧ c ∉ [((320 : Int), (240 : Int))] :=
  randomize_position_avoids_snake [((320 : Int), (240 : Int))]
    (by
      intro p hp
      rw [List.mem_singleton] at hp
      subst hp
      rw [ALL_CELLS, Finset.mem_image]
      refine ⟨(16, 12), ?_, by decide⟩
      rw [Finset.mem_product]
      refine ⟨?_, ?_⟩ <;> · rw [Finset.mem_range]; decide)
    (by
      intro h
      have h0 : ((0 : Int), (0 : Int)) ∈ ALL_CELLS := by
        rw [ALL_CELLS, Finset.mem_image]
        refine ⟨(0, 0), ?_, by decide⟩
        rw [Finset.mem_product]
        refine ⟨?_, ?_⟩ <;> · rw [Finset.mem_range]; decide
      rw [← h] at h0
      simp at h0
      exact absurd h0 (by decide))

/-! ## Helper lemmas about decimal printing and parsing -/

theorem digitsRevAux_all_lt (fuel : Nat) :
    ∀ n, ∀ d ∈ digitsRevAux fuel n, d < 10 := by
  induction fuel with
  | zero =>
    intro n d hd
    cases n <;> simp [digitsRevAux] at hd
  | succ f ih =>
    intro n d hd
    cases n with
    | zero => simp [digitsRevAux] at hd
    | succ m =>
      simp only [digitsRevAux, List.mem_cons] at hd
      rcases hd with h | h
      · subst h
        exact Nat.mod_lt _ (by omega)
      · exact ih _ d h

theorem ofDigitsLE_digitsRevAux (fuel : Nat) :
    ∀ n, n ≤ fuel → ofDigitsLE (digitsRevAux fuel n) = n := by
  induction fuel with
  | zero =>
    intro n h
    have hn : n = 0 := by omega
    subst hn
    rfl
  | succ f ih =>
    intro n h
    cases n with
    | zero => rfl
    | succ m =>
      have hdiv : (m + 1) / 10 ≤ f := by
        have := Nat.div_lt_self (Nat.succ_pos m) (by omega : 1 < 10)
        omega
      simp only [digitsRevAux, ofDigitsLE]
      rw [ih ((m + 1) / 10) hdiv]
      omega

theorem digitsRevAux_ne_nil (fuel n : Nat) (hf : fuel ≠ 0) (hn : n ≠ 0) :
    digitsRevAux fuel n ≠ [] := by
  cases fuel with
  | zero => exact absurd rfl hf
  | succ f =>
    cases n with
    | zero => exact absurd rfl hn
    | succ m => simp [digitsRevAux]

theorem digitChar_spec :
    ∀ d, d < 10 → isDigitChar (digitChar d) = true ∧ digitVal (digitChar d) = d := by
  decide

theorem pyStrNat_all_digits (n : Nat) : (pyStrNat n).all isDigitChar = true := by
  unfold pyStrNat
  split
  · decide
  · rw [List.all_eq_true]
    intro c hc
    rw [List.mem_reverse, List.mem_map] at hc
    obtain ⟨d, hd, rfl⟩ := hc
    exact (digitChar_spec d (digitsRevAux_all_lt n n d hd)).1

theorem pyStrNat_ne_nil (n : Nat) : pyStrNat n ≠ [] := by
  by_cases h0 : n = 0
  · subst h0
    decide
  · unfold pyStrNat
    rw [if_neg h0]
    intro hc
    rw [List.reverse_eq_nil_iff, List.map_eq_nil_iff] at hc
    exact digitsRevAux_ne_nil n n h0 h0 hc

theorem foldl_digits (L : List Nat) (h : ∀ d ∈ L, d < 10) (a : Nat) :
    ((L.map digitChar).reverse).foldl (fun acc c => acc * 10 + digitVal c) a =
      a * 10 ^ L.length + ofDigitsLE L := by
  induction L generalizing a with
  | nil => simp [ofDigitsLE]
  | cons d rest ih =>
    simp only [List.map_cons, List.reverse_cons, List.foldl_append,
      List.foldl_cons, List.foldl_nil]
    rw [ih (fun x hx => h x (List.mem_cons_of_mem d hx))]
    rw [(digitChar_spec d (h d (List.mem_cons_self d rest))).2]
    simp only [ofDigitsLE, List.length_cons]
    ring

theorem parseNat_pyStrNat (n : Nat) : parseNat (pyStrNat n) = some n := by
  by_cases h0 : n = 0
  · subst h0
    decide
  · have hcond : (!(pyStrNat n).isEmpty && (pyStrNat n).all isDigitChar) = true := by
      rw [Bool.and_eq_true]
      refine ⟨?_, pyStrNat_all_digits n⟩
      rw [Bool.not_eq_true']
      cases hl : pyStrNat n with
      | nil => exact absurd hl (pyStrNat_ne_nil n)
      | cons c t => rfl
    unfold parseNat
    rw [if_pos hcond]
    congr 1
    have hrepr : pyStrNat n = ((digitsRevAux n n).map digitChar).reverse := by
      unfold pyStrNat
      rw [if_neg h0]
    rw [hrepr, foldl_digits (digitsRevAux n n) (digitsRevAux_all_lt n n) 0,
      ofDigitsLE_digitsRevAux n n le_rfl]
    omega

theorem isSpaceChar_eq_false_of_digit (c : Char) (h : isDigitChar c = true) :
    isSpaceChar c = false := by
  unfold isDigitChar at h
  unfold isSpaceChar
  rw [decide_eq_true_iff] at h
  rw [decide_eq_false_iff_not]
  omega

theorem dropWhile_space_of_digits (cs : List Char)
    (h : cs.all isDigitChar = true) : cs.dropWhile isSpaceChar = cs := by
  cases cs with
  | nil => rfl
  | cons c t =>
    rw [List.all_cons, Bool.and_eq_true] at h
    rw [List.dropWhile_cons, isSpaceChar_eq_false_of_digit c h.1]
    simp

theorem strip_digits (cs : List Char) (h : cs.all isDigitChar = true) :
    strip cs = cs := by
  have hr : cs.reverse.all isDigitChar = true := by
    rw [List.all_eq_true] at h ⊢
    intro c hc
    exact h c (List.mem_reverse.mp hc)
  unfold strip
  rw [dropWhile_space_of_digits cs h, dropWhile_space_of_digits cs.reverse hr,
    List.reverse_reverse]

theorem pyInt_digits (cs : List Char) (hne : cs ≠ [])
    (h : cs.all isDigitChar = true) :
    pyInt cs = (parseNat cs).map (fun n => (n : Int)) := by
  cases cs with
  | nil => exact absurd rfl hne
  | cons c t =>
    rw [List.all_cons, Bool.and_eq_true] at h
    have h1 : c ≠ '-' := by
      intro hc
      subst hc
      exact absurd h.1 (by decide)
    have h2 : c ≠ '+' := by
      intro hc
      subst hc
      exact absurd h.1 (by decide)
    simp only [pyInt]
    rw [if_neg h1, if_neg h2]

theorem load_pyStrNat (n : Nat) :
    load_high_score (some (pyStrNat n)) = (n : Int) := by
  simp only [load_high_score]
  rw [strip_digits _ (pyStrNat_all_digits n),
    pyInt_digits _ (pyStrNat_ne_nil n) (pyStrNat_all_digits n),
    parseNat_pyStrNat n]
  rfl

/-- C5: saving any non-negative integer and loading it back returns exactly
the saved value, through the decimal text representation in the store. -/
theorem save_load_roundtrip (v : Int) (store : Option (List Char))
    (hv : 0 ≤ v) : load_high_score (save_high_score v store) = v := by
  unfold save_high_score pyStr
  rw [if_neg (by omega : ¬ v < 0), load_pyStrNat, Int.natCast_natAbs]
  exact abs_of_nonneg hv

/-- Witness for C5: the spec's own example, `save(42)` then `load()`. -/
theorem save_load_roundtrip_witness :
    (0 : Int) ≤ 42 ∧ load_high_score (save_high_score 42 none) = 42 :=
  ⟨by decide, save_load_roundtrip 42 none (by decide)⟩

/-- C6: `load_high_score` returns 0 on an absent store and on contents whose
stripped text does not parse as an integer; being a total Lean function into
`ℤ`, it returns an integer in all cases and never raises. -/
theorem load_high_score_defaults :
    load_high_score none = 0 ∧
      ∀ cs : List Char, pyInt (strip cs) = none →
        load_high_score (some cs) = 0 := by
  refine ⟨rfl, ?_⟩
  intro cs h
  simp only [load_high_score]
  rw [h]

/-- Witness for C6: the spec's example of a store containing `abc`. -/
theorem load_high_score_defaults_witness :
    pyInt (strip ['a', 'b', 'c']) = none ∧
      load_high_score (some ['a', 'b', 'c']) = 0 :=
  ⟨by decide, load_high_score_defaults.2 ['a', 'b', 'c'] (by decide)⟩

/-! ## Helper lemmas about the tick steps -/

theorem after_move_snake (g : GameState) :
    (after_move g).snake = g.snake.update_direction.move := rfl

theorem after_move_store (g : GameState) : (after_move g).store = g.store := rfl

theorem step_apple_positions (g : GameState) (na : Int × Int) :
    (step_apple g na).snake.positions = g.snake.positions := by
  unfold step_apple
  split <;> rfl

theorem step_apple_head (g : GameState) (na : Int × Int) :
    (step_apple g na).snake.get_head_position = g.snake.get_head_position := by
  unfold Snake.get_head_position
  rw [step_apple_positions]

theorem step_apple_bad_food (g : GameState) (na : Int × Int) :
    (step_apple g na).bad_food = g.bad_food := by
  unfold step_apple
  split <;> rfl

theorem step_apple_obstacle (g : GameState) (na : Int × Int) :
    (step_apple g na).obstacle = g.obstacle := by
  unfold step_apple
  split <;> rfl

theorem step_apple_store (g : GameState) (na : Int × Int) :
    (step_apple g na).store = g.store := by
  unfold step_apple
  split <;> rfl

theorem step_bad_food_obstacle (g : GameState) (nb : Int × Int) :
    (step_bad_food g nb).obstacle = g.obstacle := by
  unfold step_bad_food
  split
  · split <;> rfl
  · rfl

theorem step_bad_food_store (g : GameState) (nb : Int × Int)
    (h : ¬ (g.snake.get_head_position = g.bad_food ∧ ¬ g.snake.length > 1)) :
    (step_bad_food g nb).store = g.store := by
  unfold step_bad_food
  by_cases hc : g.snake.get_head_position = g.bad_food
  · have hl : g.snake.length > 1 := by
      by_contra hl
      exact h ⟨hc, hl⟩
    rw [if_pos hc, if_pos hl]
  · rw [if_neg hc]

theorem step_obstacle_store (g : GameState) (no : Int × Int)
    (h : ¬ g.snake.get_head_position = g.obstacle) :
    (step_obstacle g no).store = g.store := by
  unfold step_obstacle
  rw [if_neg h]

/-- C7 counterexample: `main` calls `change_title(snake.length)` once at
startup (line 247 of the source) with a fresh snake of length 1, before any
tick runs; on an absent store this writes `1` to the store although no
reset-triggering event has occurred. -/
theorem startup_store_writes_cex :
    startup_store none = some ['1'] ∧ startup_store none ≠ none :=
  ⟨by decide, by decide⟩

/-- C7 (amended): `change_title(n)` overwrites the store exactly when `n` is
strictly greater than the stored high score, and a tick leaves the store
untouched unless its bad-food-death or obstacle-hit reset branch runs; in
addition, `main` performs one further `change_title` write at startup,
before any tick, which can also mutate the store. -/
theorem change_title_store_policy :
    (∀ (n : Nat) (store : Option (List Char)),
        change_title n store ≠ store ↔ (n : Int) > load_high_score store) ∧
      ∀ (g : GameState) (na nb no : Int × Int),
        ¬ bad_food_death g na → ¬ obstacle_hit g na nb →
          (tick g na nb no).store = g.store := by
  constructor
  · intro n store
    constructor
    · intro hne
      by_contra hgt
      exact hne (by unfold change_title; rw [if_neg hgt])
    · intro hgt heq
      have hl := save_load_roundtrip (n : Int) store (Int.natCast_nonneg n)
      rw [show save_high_score (n : Int) store = change_title n store from by
        unfold change_title; rw [if_pos hgt]] at hl
      rw [heq] at hl
      omega
  · intro g na nb no hb ho
    have ho2 : ¬ (step_bad_food (step_apple (after_move g) na) nb).snake.get_head_position
        = (step_bad_food (step_apple (after_move g) na) nb).obstacle := by
      rw [step_bad_food_obstacle, step_apple_obstacle]
      exact ho
    have hb2 : ¬ ((step_apple (after_move g) na).snake.get_head_position
          = (step_apple (after_move g) na).bad_food ∧
        ¬ (step_apple (after_move g) na).snake.length > 1) := by
      rw [step_apple_bad_food]
      exact hb
    unfold tick
    rw [step_obstacle_store _ no ho2, step_bad_food_store _ nb hb2,
      step_apple_store, after_move_store]

/-- Witness for C7: a tick that hits nothing leaves the store untouched. -/
theorem change_title_store_policy_witness :
    ¬ bad_food_death sampleGame (0, 0) ∧
      ¬ obstacle_hit sampleGame (0, 0) (0, 0) ∧
      (tick sampleGame (0, 0) (0, 0) (0, 0)).store = sampleGame.store :=
  ⟨by decide, by decide,
    change_title_store_policy.2 sampleGame (0, 0) (0, 0) (0, 0)
      (by decide) (by decide)⟩

/-- Combined effect of the bad-food and obstacle checks on body length and
target length, on a tick whose two reset branches do not run. -/
theorem tick_tail_length (A : GameState) (nb no : Int × Int) (n : Nat)
    (hplen : A.snake.positions.length = n)
    (hb2 : ¬ (A.snake.get_head_position = A.bad_food ∧ ¬ A.snake.length > 1))
    (ho2 : ¬ (step_bad_food A nb).snake.get_head_position
        = (step_bad_food A nb).obstacle) :
    (step_obstacle (step_bad_food A nb) no).snake.positions.length =
        (if A.snake.get_head_position = A.bad_food then n - 1 else n) ∧
      (step_obstacle (step_bad_food A nb) no).snake.length =
        (if A.snake.get_head_position = A.bad_food then A.snake.length - 1
         else A.snake.length) := by
  unfold step_obstacle
  rw [if_neg ho2]
  unfold step_bad_food
  by_cases hc : A.snake.get_head_position = A.bad_food
  · have hbl : A.snake.length > 1 := by
      by_contra hl
      exact hb2 ⟨hc, hl⟩
    rw [if_pos hc, if_pos hbl, if_pos hc, if_pos hc]
    constructor
    · simp [List.length_dropLast, hplen]
    · rfl
  · rw [if_neg hc, if_neg hc, if_neg hc]
    exact ⟨hplen, rfl⟩

/-- C4: on a tick with no collision and no reset, the invariant
`len(positions) == length` is re-established, except that when the apple
event fires this tick (growth pending) the body is one cell short of
`length` until the next move realizes the growth. -/
theorem tick_length_invariant (g : GameState) (na nb no : Int × Int)
    (hinv : g.snake.positions.length = g.snake.length)
    (hlen1 : 1 ≤ g.snake.length)
    (hnr : ¬ tick_has_reset g na nb) :
    ((after_move g).snake.get_head_position = g.apple →
        (tick g na nb no).snake.positions.length + 1 =
          (tick g na nb no).snake.length) ∧
      ((after_move g).snake.get_head_position ≠ g.apple →
        (tick g na nb no).snake.positions.length =
          (tick g na nb no).snake.length) := by
  unfold tick_has_reset at hnr
  obtain ⟨h1, h2, h3⟩ :
      ¬ self_collision g ∧ ¬ bad_food_death g na ∧ ¬ obstacle_hit g na nb :=
    ⟨fun h => hnr (Or.inl h), fun h => hnr (Or.inr (Or.inl h)),
      fun h => hnr (Or.inr (Or.inr h))⟩
  unfold self_collision at h1
  unfold bad_food_death at h2
  unfold obstacle_hit at h3
  have hulen : g.snake.update_direction.length = g.snake.length :=
    Snake.update_direction_length g.snake
  have hmlen : (after_move g).snake.length = g.snake.length := by
    rw [after_move_snake, Snake.move_length_field _ h1, hulen]
  have hmplen : (after_move g).snake.positions.length = g.snake.length := by
    rw [after_move_snake,
      Snake.move_positions_length _ h1
        (by rw [Snake.update_direction_positions, hinv, hulen]),
      hulen]
  have hb2 : ¬ ((step_apple (after_move g) na).snake.get_head_position
        = (step_apple (after_move g) na).bad_food ∧
      ¬ (step_apple (after_move g) na).snake.length > 1) := by
    rw [step_apple_bad_food]
    exact h2
  have ho2 : ¬ (step_bad_food (step_apple (after_move g) na) nb).snake.get_head_position
      = (step_bad_food (step_apple (after_move g) na) nb).obstacle := by
    rw [step_bad_food_obstacle, step_apple_obstacle]
    exact h3
  obtain ⟨hplen, hlen⟩ :=
    tick_tail_length (step_apple (after_move g) na) nb no g.snake.length
      (by rw [step_apple_positions, hmplen]) hb2 ho2
  refine ⟨fun ha => ?_, fun ha => ?_⟩
  · have ha2 : (after_move g).snake.get_head_position = (after_move g).apple := ha
    have hAlen : (step_apple (after_move g) na).snake.length =
        g.snake.length + 1 := by
      unfold step_apple
      rw [if_pos ha2]
      show (after_move g).snake.length + 1 = g.snake.length + 1
      rw [hmlen]
    unfold tick
    rw [hplen, hlen, hAlen]
    split_ifs with hc
    · omega
    · omega
  · have ha2 : ¬ (after_move g).snake.get_head_position = (after_move g).apple := ha
    have hAlen : (step_apple (after_move g) na).snake.length =
        g.snake.length := by
      unfold step_apple
      rw [if_neg ha2]
      exact hmlen
    unfold tick
    rw [hplen, hlen, hAlen]

/-- Witness for C4: a tick of the fresh game in which nothing is hit. -/
theorem tick_length_invariant_witness :
    (sampleGame.snake.positions.length = sampleGame.snake.length ∧
        1 ≤ sampleGame.snake.length ∧
        ¬ tick_has_reset sampleGame (0, 0) (0, 0)) ∧
      (tick sampleGame (0, 0) (0, 0) (0, 0)).snake.positions.length =
        (tick sampleGame (0, 0) (0, 0) (0, 0)).snake.length :=
  ⟨⟨by decide, by decide, by decide⟩,
    (tick_length_invariant sampleGame (0, 0) (0, 0) (0, 0)
      (by decide) (by decide) (by decide)).2 (by decide)⟩

/-! ## Body nonemptiness -/

theorem Snake.move_positions_length_ge (s : Snake)
    (h : s.next_head ∉ s.positions.tail) (hne : s.positions ≠ [])
    (hl : 2 ≤ s.length) : 2 ≤ s.move.positions.length := by
  have hp1 : 0 < s.positions.length := List.length_pos.mpr hne
  simp only [Snake.move, if_neg h]
  split
  · rename_i hcond
    simp only [List.length_cons] at hcond
    simp only [List.length_dropLast, List.length_cons]
    omega
  · simp only [List.length_cons]
    omega

theorem move_positions_ne_nil (s : Snake) (hne : s.positions ≠ []) :
    s.move.positions ≠ [] := by
  by_cases h : s.next_head ∈ s.positions.tail
  · rw [Snake.move_reset_of_mem s h]
    decide
  · simp only [Snake.move, if_neg h]
    split
    · apply List.length_pos.mp
      simp only [List.length_dropLast, List.length_cons]
      have := List.length_pos.mpr hne
      omega
    · simp

/-- C10 counterexample: with the apple and the bad food on the same cell in
front of a one-cell snake, the tick's bad-food pop runs (its `length > 1`
guard holds because the apple event just incremented `length`) and empties
the body, after which `positions[0]` is undefined. -/
theorem bad_food_pop_empties_body_cex :
    (step_bad_food (step_apple (after_move overlapGame) (0, 0)) (0, 0)).snake.positions
        = [] ∧
      overlapGame.apple = overlapGame.bad_food :=
  ⟨by decide, by decide⟩

/-- C10 (amended): the body is nonempty after construction and reset, after
`update_direction()`, and after either branch of `move()`; a full tick also
preserves nonemptiness provided the apple and the bad food occupy distinct
cells — when they coincide on the new head of a one-cell snake, the
bad-food tail pop empties the body. -/
theorem body_nonempty_invariant :
    Snake.initial.positions ≠ [] ∧
      (∀ s : Snake, s.positions ≠ [] → s.update_direction.positions ≠ []) ∧
      (∀ s : Snake, s.positions ≠ [] → s.move.positions ≠ []) ∧
      ∀ (g : GameState) (na nb no : Int × Int),
        g.snake.positions ≠ [] → g.apple ≠ g.bad_food →
          (tick g na nb no).snake.positions ≠ [] := by
  refine ⟨by decide, ?_, ?_, ?_⟩
  · intro s h
    rw [Snake.update_direction_positions]
    exact h
  · intro s h
    exact move_positions_ne_nil s h
  · intro g na nb no hne hab
    have hm : (after_move g).snake.positions ≠ [] := by
      rw [after_move_snake]
      apply move_positions_ne_nil
      rw [Snake.update_direction_positions]
      exact hne
    have hA : (step_apple (after_move g) na).snake.positions ≠ [] := by
      rw [step_apple_positions]
      exact hm
    have hB : (step_bad_food (step_apple (after_move g) na) nb).snake.positions ≠ [] := by
      unfold step_bad_food
      by_cases hc : (step_apple (after_move g) na).snake.get_head_position
          = (step_apple (after_move g) na).bad_food
      · rw [if_pos hc]
        by_cases hl : (step_apple (after_move g) na).snake.length > 1
        · rw [if_pos hl]
          have hnotapple : ¬ (after_move g).snake.get_head_position
              = (after_move g).apple := by
            intro hap
            apply hab
            have hh := step_apple_head (after_move g) na
            have hbf := step_apple_bad_food (after_move g) na
            have hmb : (after_move g).snake.get_head_position
                = (after_move g).bad_food := by
              rw [← hh, hc, hbf]
            calc g.apple = (after_move g).apple := rfl
              _ = (after_move g).snake.get_head_position := hap.symm
              _ = (after_move g).bad_food := hmb
              _ = g.bad_food := rfl
          have hAeq : step_apple (after_move g) na = after_move g := by
            unfold step_apple
            rw [if_neg hnotapple]
          rw [hAeq] at hl ⊢
          rw [after_move_snake] at hl
          have hge : 2 ≤ (after_move g).snake.positions.length := by
            rw [after_move_snake]
            by_cases hcol : g.snake.update_direction.next_head
                ∈ g.snake.update_direction.positions.tail
            · exfalso
              rw [Snake.move_reset_of_mem _ hcol] at hl
              exact absurd hl (by decide)
            · refine Snake.move_positions_length_ge _ hcol ?_ ?_
              · rw [Snake.update_direction_positions]
                exact hne
              · rw [Snake.move_length_field _ hcol] at hl
                omega
          apply List.length_pos.mp
          simp only [List.length_dropLast]
          omega
        · rw [if_neg hl]
          show Snake.initial.positions ≠ []
          decide
      · rw [if_neg hc]
        exact hA
    unfold tick step_obstacle
    by_cases ho : (step_bad_food (step_apple (after_move g) na) nb).snake.get_head_position
        = (step_bad_food (step_apple (after_move g) na) nb).obstacle
    · rw [if_pos ho]
      show Snake.initial.positions ≠ []
      decide
    · rw [if_neg ho]
      exact hB

/-- Witness for C10: a tick of the fresh game with distinct entities. -/
theorem body_nonempty_invariant_witness :
    sampleGame.snake.positions ≠ [] ∧
      sampleGame.apple ≠ sampleGame.bad_food ∧
      (tick sampleGame (0, 0) (0, 0) (0, 0)).snake.positions ≠ [] :=
  ⟨by decide, by decide,
    body_nonempty_invariant.2.2.2 sampleGame (0, 0) (0, 0) (0, 0)
      (by decide) (by decide)⟩

end TheSnake
